import Mathlib

/-!
Verification development for the TaxTime document-parsing pipeline
(src/direct-file/df-client/df-client-app/src/services/documentParsingService.ts,
src/.../services/ocrProviders.ts, and the form-parser module).

Modelling conventions:
* JS strings are modelled as Lean `String` / `List Char`; the JS regular
  expressions that the code applies are embedded as an explicit regex AST
  (`RE`) together with a fuel-based backtracking matcher implementing the
  leftmost, greedy, left-alternative-first semantics of JS regexes for the
  constructs these patterns use (character classes, sequencing, alternation,
  greedy star/plus/optional, bounded repetition, numbered capture groups,
  and the multiline start-of-line anchor).
* JS numbers are modelled as `ℚ`.  The Batteries library marks `Rat.add`,
  `Rat.sub`, `Rat.mul` and `Rat.ofScientific` irreducible, so the decimal
  constants of the source (0.4, 0.8, ...) are written `mkRat n d` (which the
  kernel can evaluate); sanity lemmas below relate them to decimal literals.
  A JS `NaN` result is modelled as `none : Option ℚ` at the site where it is
  produced, mirroring how the code observes it (`isNaN`, or a comparison
  that is false for `NaN`).
* `async` boundaries (the OCR providers) are modelled by passing the settled
  outcome (`Except`) or the recognized text (`OCRResult`) as an argument.
-/

/-- Character class of the JS whitespace escape (the whitespace characters
occurring in this code base; the full JS class also has some exotic unicode
space characters, none of which appear here). -/
def wsChar (c : Char) : Bool :=
  c == ' ' || c == '\t' || c == '\n' || c == '\r' || c == '\x0b' || c == '\x0c'

/-- JS String.prototype.trim over a character list. -/
def jsTrim (l : List Char) : List Char :=
  ((l.dropWhile wsChar).reverse.dropWhile wsChar).reverse

/-- JS String.prototype.toLowerCase (ASCII; all inputs here are ASCII). -/
def toLowerL (l : List Char) : List Char :=
  l.map Char.toLower

/-- JS String.prototype.includes: needle occurs as a contiguous substring. -/
def isSubstrL (needle hay : List Char) : Bool :=
  hay.tails.any (fun t => needle.isPrefixOf t)

/-- Regex AST for the constructs used by the regex literals of the source. -/
inductive RE where
  | eps : RE
  | cls (p : Char → Bool) : RE
  | seq (a b : RE) : RE
  | alt (a b : RE) : RE
  | star (r : RE) : RE
  | opt (r : RE) : RE
  | grp (n : Nat) (r : RE) : RE

/-- Capture environment: group number to captured characters. -/
abbrev Caps := List (Nat × List Char)

/-- Backtracking matcher in continuation-passing style.  Greedy quantifiers
try the longer alternative first and backtrack through the continuation;
alternation prefers its left branch; a star iteration that consumes nothing
ends the iteration (as in JS).  Fuel only bounds recursion depth; the
callers below supply enough fuel that it never runs out on their inputs. -/
def reRun : Nat → RE → List Char → Caps →
    (List Char → Caps → Option (List Char × Caps)) → Option (List Char × Caps)
  | 0, _, _, _, _ => none
  | fuel + 1, r, s, caps, k =>
    match r with
    | .eps => k s caps
    | .cls p =>
      match s with
      | [] => none
      | c :: rest => if p c then k rest caps else none
    | .seq a b => reRun fuel a s caps (fun s1 c1 => reRun fuel b s1 c1 k)
    | .alt a b =>
      match reRun fuel a s caps k with
      | some res => some res
      | none => reRun fuel b s caps k
    | .star r0 =>
      match reRun fuel r0 s caps (fun s1 c1 =>
          if s1.length < s.length then reRun fuel (.star r0) s1 c1 k else none) with
      | some res => some res
      | none => k s caps
    | .opt r0 =>
      match reRun fuel r0 s caps k with
      | some res => some res
      | none => k s caps
    | .grp n r0 =>
      reRun fuel r0 s caps (fun s1 c1 =>
        k s1 ((n, s.take (s.length - s1.length)) :: c1))

/-- Fuel that is amply sufficient for the patterns of this code base. -/
def matchFuel (s : List Char) : Nat :=
  (s.length + 2) * 100

/-- Attempt a match of the pattern at the current position; on success
return the matched characters, the captures and the remaining suffix. -/
def tryMatchAt (r : RE) (s : List Char) : Option (List Char × Caps × List Char) :=
  match reRun (matchFuel s) r s [] (fun s1 c1 => some (s1, c1)) with
  | some (rest, caps) => some (s.take (s.length - rest.length), caps, rest)
  | none => none

/-- Leftmost match: try each position in order.  When `anchored` is true the
pattern starts with the multiline start-of-line anchor, so only the start of
the string and positions just after a newline are tried. -/
def findFirstAux (r : RE) (anchored : Bool) : List Char → Bool → Option (List Char × Caps)
  | [], atStart =>
    match (if !anchored || atStart then tryMatchAt r [] else none) with
    | some (m, caps, _) => some (m, caps)
    | none => none
  | c :: rest, atStart =>
    match (if !anchored || atStart then tryMatchAt r (c :: rest) else none) with
    | some (m, caps, _) => some (m, caps)
    | none => findFirstAux r anchored rest (c == '\n')

/-- A JS regex literal: the AST plus whether it is a pattern of the form
`/^.../m` (start-of-line anchored, multiline flag). -/
structure JsRegex where
  re : RE
  anchorLineStart : Bool := false

/-- Result of a successful non-global JS String.prototype.match call:
the matched text (match[0]) and the numbered captures. -/
structure JsMatch where
  matched : List Char
  caps : Caps

/-- JS text.match(regex) for a non-global regex: leftmost match or null. -/
def jsMatch (rx : JsRegex) (s : List Char) : Option JsMatch :=
  match findFirstAux rx.re rx.anchorLineStart s true with
  | some (m, caps) => some ⟨m, caps⟩
  | none => none

/-- JS regex.test(text). -/
def jsTest (rx : JsRegex) (s : List Char) : Bool :=
  (jsMatch rx s).isSome

/-- Capture group access, JS match[n] (none = the group did not participate). -/
def JsMatch.capture (m : JsMatch) (n : Nat) : Option (List Char) :=
  m.caps.lookup n

/-- Worker for the global match: repeatedly take the leftmost match and
continue after it (after one character if the match was empty, as JS
advances lastIndex by one in that case). -/
def findAllAux (r : RE) : Nat → List Char → List (List Char)
  | 0, _ => []
  | fuel + 1, s =>
    match tryMatchAt r s with
    | some (m, _, rest) =>
      if m.isEmpty then
        m :: (match s with
              | [] => []
              | _ :: t => findAllAux r fuel t)
      else m :: findAllAux r fuel rest
    | none =>
      match s with
      | [] => []
      | _ :: t => findAllAux r fuel t

/-- JS text.match(regex-with-g-flag): the list of all matches in order
(the empty list plays the role of the null result). -/
def findAll (r : RE) (s : List Char) : List (List Char) :=
  findAllAux r (s.length + 1) s

/-- Single literal character. -/
def chr (c : Char) : RE := .cls (fun d => d == c)

/-- Single literal character, case-insensitive (the /i flag). -/
def chri (c : Char) : RE := .cls (fun d => d.toLower == c.toLower)

/-- Sequence a list of regexes. -/
def reSeqL (l : List RE) : RE := l.foldr .seq .eps

/-- Literal string. -/
def lit (str : String) : RE := reSeqL (str.data.map chr)

/-- Literal string, case-insensitive. -/
def liti (str : String) : RE := reSeqL (str.data.map chri)

/-- Greedy plus quantifier. -/
def RE.plus (r : RE) : RE := .seq r (.star r)

/-- Exact repetition r{n}. -/
def repN : Nat → RE → RE
  | 0, _ => .eps
  | n + 1, r => .seq r (repN n r)

/-- Greedy at-most-n repetition. -/
def upTo : Nat → RE → RE
  | 0, _ => .eps
  | n + 1, r => .opt (.seq r (upTo n r))

/-- Greedy bounded repetition r{lo,hi}. -/
def repRange (lo hi : Nat) (r : RE) : RE := .seq (repN lo r) (upTo (hi - lo) r)

/-- The \s class. -/
def wsRE : RE := .cls wsChar

/-- The \d class. -/
def digitRE : RE := .cls Char.isDigit

/-- The JS dot: anything but a line terminator (of the JS line terminators
only the newline and carriage return occur in this code base). -/
def dotRE : RE := .cls (fun c => !(c == '\n' || c == '\r'))

/-- Numeric value of a list of decimal digits. -/
def digitsToNat (l : List Char) : Nat :=
  l.foldl (fun a c => a * 10 + (c.toNat - 48)) 0

/-- JS parseFloat: skip leading whitespace, then parse the longest prefix of
the form [+-]?digits[.digits][(e|E)[+-]digits]; none models the NaN result.
The rational is assembled with mkRat from integer arithmetic. -/
def jsParseFloat (s : List Char) : Option ℚ :=
  let s1 := s.dropWhile wsChar
  let signAndRest : Int × List Char :=
    match s1 with
    | '-' :: t => (-1, t)
    | '+' :: t => (1, t)
    | t => (1, t)
  let sign := signAndRest.1
  let ipSplit := signAndRest.2.span Char.isDigit
  let fpSplit : List Char × List Char :=
    match ipSplit.2 with
    | '.' :: t => t.span Char.isDigit
    | _ => ([], ipSplit.2)
  let ip := ipSplit.1
  let fp := fpSplit.1
  if ip.isEmpty && fp.isEmpty then none
  else
    let expPart : Int × List Char :=
      match fpSplit.2 with
      | c :: t =>
        if c == 'e' || c == 'E' then
          match t with
          | '-' :: u => (-1, u.takeWhile Char.isDigit)
          | '+' :: u => (1, u.takeWhile Char.isDigit)
          | u => (1, u.takeWhile Char.isDigit)
        else (1, [])
      | [] => (1, [])
    let mant : Int := sign * (digitsToNat ip * 10 ^ fp.length + digitsToNat fp)
    if expPart.2.isEmpty then
      some (mkRat mant (10 ^ fp.length))
    else
      let e := digitsToNat expPart.2
      if expPart.1 < 0 then
        some (mkRat mant (10 ^ fp.length * 10 ^ e))
      else
        some (mkRat (mant * 10 ^ e) (10 ^ fp.length))

/-- Document types, from types/documents.ts:
DocType = W2 | 1099_INT | 1099_DIV | 1099_NEC | 1098_E | UNKNOWN. -/
inductive DocType where
  | W2
  | F1099INT
  | F1099DIV
  | F1099NEC
  | F1098E
  | UNKNOWN
  deriving DecidableEq, Repr

/-- A field value: string | number (a null value is never stored, because
extractField drops the field instead). -/
inductive FieldValue where
  | str (s : String)
  | num (q : ℚ)
  deriving DecidableEq, Repr

/-- The source sub-object of an ExtractedField. -/
structure FieldSource where
  documentId : String
  page : Nat
  bbox : Option (ℚ × ℚ × ℚ × ℚ) := none
  textSnippet : Option String := none
  deriving DecidableEq, Repr

/-- ExtractedField from types/documents.ts. -/
structure ExtractedField where
  key : String
  label : String
  value : FieldValue
  confidence : ℚ
  source : Option FieldSource := none
  deriving DecidableEq, Repr

/-- ExtractedDocument from types/documents.ts. -/
structure ExtractedDocument where
  documentId : String
  type : DocType
  fields : List ExtractedField
  deriving DecidableEq, Repr

/-- One bounding-box entry of an OCR result. -/
structure OCRBox where
  text : String
  bbox : ℚ × ℚ × ℚ × ℚ
  confidence : ℚ
  deriving DecidableEq, Repr

/-- OCRResult: recognized text, document-level confidence, optional boxes. -/
structure OCRResult where
  text : String
  confidence : ℚ
  boundingBoxes : Option (List OCRBox) := none
  deriving DecidableEq, Repr

/-- The valueType enum of a FieldPattern. -/
inductive ValueType where
  | currency
  | text
  | ssn
  | ein
  | date
  deriving DecidableEq, Repr

/-- FieldPattern from formParsers.ts. -/
structure FieldPattern where
  key : String
  label : String
  patterns : List JsRegex
  type : ValueType
  required : Bool := false
  validation : Option (FieldValue → Bool) := none

/-- TaxFormParser.parseCurrency: strip dollar signs, commas and whitespace,
then parseFloat; null for NaN. -/
def parseCurrency (s : List Char) : Option ℚ :=
  jsParseFloat (s.filter (fun c => !(c == '$' || c == ',' || wsChar c)))

/-- TaxFormParser.parseText: the trimmed first capture if nonempty, else
the trimmed whole match if nonempty, else null (JS falsy chaining). -/
def parseTextJS (m0 : List Char) (m1 : Option (List Char)) : Option (List Char) :=
  let fb := (fun t => if t.isEmpty then none else some t) (jsTrim m0)
  match m1 with
  | some c1 =>
    let t := jsTrim c1
    if t.isEmpty then fb else some t
  | none => fb

/-- TaxFormParser.parseSSN: strip non-digits, accept exactly 9 digits. -/
def parseSSN (s : List Char) : Option (List Char) :=
  let cleaned := s.filter Char.isDigit
  if cleaned.length == 9 then some cleaned else none

/-- TaxFormParser.parseEIN: identical to parseSSN in the source. -/
def parseEIN (s : List Char) : Option (List Char) :=
  let cleaned := s.filter Char.isDigit
  if cleaned.length == 9 then some cleaned else none

/-- JS String.prototype.padStart(2, "0"). -/
def padStart2 (l : List Char) : List Char :=
  List.replicate (2 - l.length) '0' ++ l

/-- The internal date regex of TaxFormParser.parseDate. -/
def dateInnerRE : RE :=
  .seq (.grp 1 (repRange 1 2 digitRE))
    (.seq (.cls (fun c => c == '/' || c == '-'))
      (.seq (.grp 2 (repRange 1 2 digitRE))
        (.seq (.cls (fun c => c == '/' || c == '-'))
          (.grp 3 (repRange 2 4 digitRE)))))

/-- TaxFormParser.parseDate: match month, day and a 2-or-4-digit year
separated by slash or dash; two-digit years become
20YY; normalize to YYYY-MM-DD with zero padding.  The three groups always
participate when the regex matches, so the none fallbacks are unreachable. -/
def parseDate (s : List Char) : Option (List Char) :=
  match jsMatch ⟨dateInnerRE, false⟩ s with
  | none => none
  | some m =>
    match m.capture 1, m.capture 2, m.capture 3 with
    | some mo, some d, some y =>
      let fullYear := if y.length == 2 then '2' :: '0' :: y else y
      some (fullYear ++ '-' :: padStart2 mo ++ '-' :: padStart2 d)
    | _, _, _ => none

/-- TaxFormParser.findBoundingBox: first box whose text contains the match
or is contained in it. -/
def findBoundingBox (m0 : List Char) (boxes : Option (List OCRBox)) :
    Option (ℚ × ℚ × ℚ × ℚ) :=
  match boxes with
  | none => none
  | some bs =>
    (bs.find? (fun b => isSubstrL m0 b.text.data || isSubstrL b.text.data m0)).map
      (fun b => b.bbox)

/-- The switch on pattern.type inside TaxFormParser.extractField (the
default branch of the switch is unreachable, the enum being exhaustive). -/
def coerceValue (vt : ValueType) (m : JsMatch) : Option FieldValue :=
  match vt with
  | .currency => (parseCurrency m.matched).map FieldValue.num
  | .text => (parseTextJS m.matched (m.capture 1)).map (fun t => .str (String.mk t))
  | .ssn => (parseSSN m.matched).map (fun t => .str (String.mk t))
  | .ein => (parseEIN m.matched).map (fun t => .str (String.mk t))
  | .date => (parseDate m.matched).map (fun t => .str (String.mk t))

/-- The for-loop of TaxFormParser.extractField: try each regex in order;
on a match whose coerced value is non-null and passes validation, build the
field (fixed confidence 0.8); otherwise continue with the next regex. -/
def extractFieldLoop (text : List Char) (p : FieldPattern) (ocr : OCRResult) :
    List JsRegex → Option ExtractedField
  | [] => none
  | rx :: rest =>
    match jsMatch rx text with
    | none => extractFieldLoop text p ocr rest
    | some m =>
      match coerceValue p.type m with
      | none => extractFieldLoop text p ocr rest
      | some v =>
        if (match p.validation with
            | none => true
            | some f => f v) then
          some { key := p.key, label := p.label, value := v,
                 confidence := mkRat 8 10,
                 source := some { documentId := "", page := 1,
                                  bbox := findBoundingBox m.matched ocr.boundingBoxes,
                                  textSnippet := some (String.mk m.matched) } }
        else extractFieldLoop text p ocr rest

/-- TaxFormParser.extractField. -/
def extractField (text : List Char) (p : FieldPattern) (ocr : OCRResult) :
    Option ExtractedField :=
  extractFieldLoop text p ocr p.patterns

/-- Descending insertion (stable, like the JS numeric sort comparator
(a, b) =&gt; b - a on the lists arising here). -/
def insertDesc (a : ℚ) : List ℚ → List ℚ
  | [] => [a]
  | b :: t => if b < a then a :: b :: t else b :: insertDesc a t

/-- Descending sort. -/
def sortDesc : List ℚ → List ℚ
  | [] => []
  | a :: t => insertDesc a (sortDesc t)

/-- The \d-or-comma class of the currency patterns. -/
def digitCommaRE : RE := .cls (fun c => c.isDigit || c == ',')

/-- The currency-shaped-substring regex of the generic scans. -/
def currencyScanRE : RE :=
  .seq (chr '$') (.seq (RE.plus digitCommaRE) (.seq (.opt (chr '.')) (.star digitRE)))

/-- Decimal digits of a natural number. -/
def natDigits (n : Nat) : List Char := (toString n).data

/-- Insert thousands separators into a reversed digit list. -/
def groupAux : List Char → Nat → List Char
  | [], _ => []
  | c :: t, i =>
    if i != 0 && i % 3 == 0 then ',' :: c :: groupAux t (i + 1)
    else c :: groupAux t (i + 1)

/-- Comma grouping of the decimal digits of a natural number. -/
def groupThousands (n : Nat) : List Char :=
  (groupAux (natDigits n).reverse 0).reverse

/-- Models JS Number.prototype.toLocaleString() (default en-US locale) for
the values that reach it here: thousands grouping, at most three fraction
digits, ties rounded away from zero, trailing fraction zeros dropped.  Only
used to build display snippets; no claim depends on its exact output. -/
def toLocaleStringQ (q : ℚ) : String :=
  let n := q.num.natAbs
  let d := q.den
  let ip := n / d
  let r := n % d
  let f3 := (2 * (r * 1000) + d) / (2 * d)
  let ip2 := if f3 == 1000 then ip + 1 else ip
  let f := if f3 == 1000 then 0 else f3
  let frac3 := ((List.replicate (3 - (natDigits f).length) '0' ++ natDigits f).reverse.dropWhile (· == '0')).reverse
  let base := groupThousands ip2 ++ (if f == 0 then [] else '.' :: frac3)
  String.mk ((if q.num < 0 then ['-'] else []) ++ base)

/-- TaxFormParser.postProcessFields (the base-class fallback): when no field
was extracted and the text has at least two currency-shaped substrings,
parse them, keep the amounts above 100 (a NaN never exceeds 100), sort
descending, and emit the largest as wages and, when present, the second
largest as federalTaxWithheld, both at confidence 0.6. -/
def basePostProcessFields (fields : List ExtractedField) (ocr : OCRResult) :
    List ExtractedField :=
  if fields.isEmpty then
    let currencyMatches := findAll currencyScanRE ocr.text.data
    if 2 ≤ currencyMatches.length then
      let amounts := sortDesc
        (((currencyMatches.map
            (fun m => jsParseFloat (m.filter (fun c => !(c == '$' || c == ','))))).filterMap
              id).filter (fun a => 100 < a))
      match amounts with
      | [] => fields
      | a0 :: rest =>
        { key := "wages", label := "Wages (Auto-detected)", value := .num a0,
          confidence := mkRat 6 10,
          source := some { documentId := "", page := 1,
                           textSnippet := some ("$" ++ toLocaleStringQ a0) } } ::
        (match rest with
         | [] => []
         | a1 :: _ =>
           [{ key := "federalTaxWithheld",
              label := "Federal Tax Withheld (Auto-detected)", value := .num a1,
              confidence := mkRat 6 10,
              source := some { documentId := "", page := 1,
                               textSnippet := some ("$" ++ toLocaleStringQ a1) } }])
    else fields
  else fields

/-- TaxFormParser.parseDocument (the base-class algorithm): extract every
field spec in declaration order, then post-process. -/
def taxFormParserParseDocument (fieldPatterns : List FieldPattern)
    (post : List ExtractedField → OCRResult → List ExtractedField)
    (ocr : OCRResult) : List ExtractedField :=
  post (fieldPatterns.filterMap (fun p => extractField ocr.text.data p ocr)) ocr

/-- Class for colon-or-whitespace, the [:\s] of several label patterns. -/
def colonWsRE : RE := .cls (fun c => c == ':' || wsChar c)

/-- Class for anything but newline or carriage return. -/
def notNlCrRE : RE := .cls (fun c => !(c == '\n' || c == '\r'))

/-- Class for anything but a dollar sign. -/
def notDollarRE : RE := .cls (fun c => !(c == '$'))

/-- The capturing amount part of the currency field patterns. -/
def amountGrpRE : RE :=
  .grp 1 (.seq (RE.plus digitCommaRE) (.seq (.opt (chr '.')) (.star digitRE)))

/-- The non-dollar run, optional dollar sign and captured amount shared by
all the currency field patterns. -/
def amountTailRE : RE := .seq (.star notDollarRE) (.seq (.opt (chr '$')) amountGrpRE)

/-- A box-labelled currency pattern, parameterized by the box designator. -/
def boxAmtRE (numPart : RE) : RE :=
  .seq (liti "Box") (.seq (.star wsRE) (.seq numPart amountTailRE))

/-- A text-labelled currency pattern. -/
def labelAmtRE (s : String) : RE := .seq (liti s) amountTailRE

/-- The ASCII uppercase class. -/
def upperAZ : RE := .cls (fun c => 'A' ≤ c && c ≤ 'Z')

/-- The ASCII lowercase class. -/
def lowerAZ : RE := .cls (fun c => 'a' ≤ c && c ≤ 'z')

/-- The letters-whitespace-ampersand-dot-comma class of the payer-name
patterns. -/
def nameClsRE : RE :=
  .cls (fun c =>
    ('A' ≤ c && c ≤ 'Z') || ('a' ≤ c && c ≤ 'z') || wsChar c ||
      c == '&' || c == '.' || c == ',')

/-- The captured TIN shape: two digits, optional dash, seven digits. -/
def tinGrpRE : RE :=
  .grp 1 (.seq (repN 2 digitRE) (.seq (.opt (chr '-')) (repN 7 digitRE)))

/-- Validator of the interestIncome spec: 0 le value le 1000000 (applied to
the coerced number; a non-numeric value cannot reach it). -/
def interestIncomeValidation : FieldValue → Bool
  | .num q => decide (0 ≤ q ∧ q ≤ 1000000)
  | .str _ => false

/-- The fieldPatterns table of Form1099INTParser. -/
def int1099FieldPatterns : List FieldPattern :=
  [ { key := "payerName", label := "Payer Name",
      patterns :=
        [ ⟨.seq (.alt (liti "Payer") (.alt (liti "Bank") (liti "Institution")))
            (.seq (.star colonWsRE) (.grp 1 (RE.plus notNlCrRE))), false⟩,
          ⟨.grp 1 (.seq upperAZ (.seq (RE.plus nameClsRE)
            (.alt (lit "Bank") (.alt (lit "Credit Union")
              (.alt (lit "Financial") (lit "Investment")))))), true⟩ ],
      type := .text, required := true },
    { key := "payerTIN", label := "Payer TIN",
      patterns :=
        [ ⟨.seq (liti "TIN") (.seq (.star colonWsRE) tinGrpRE), false⟩,
          ⟨.seq (liti "Tax ID") (.seq (.star colonWsRE) tinGrpRE), false⟩ ],
      type := .ein },
    { key := "interestIncome", label := "Interest Income (Box 1)",
      patterns :=
        [ ⟨boxAmtRE (chr '1'), false⟩,
          ⟨labelAmtRE "Interest income", false⟩ ],
      type := .currency, required := true,
      validation := some interestIncomeValidation },
    { key := "earlyWithdrawalPenalty", label := "Early Withdrawal Penalty (Box 2)",
      patterns :=
        [ ⟨boxAmtRE (chr '2'), false⟩,
          ⟨labelAmtRE "Early withdrawal", false⟩ ],
      type := .currency },
    { key := "federalTaxWithheld", label := "Federal Income Tax Withheld (Box 4)",
      patterns :=
        [ ⟨boxAmtRE (chr '4'), false⟩,
          ⟨.seq (liti "Federal") (.seq (.star dotRE)
            (.seq (liti "withheld") amountTailRE)), false⟩ ],
      type := .currency } ]

/-- The fieldPatterns table of Form1099DIVParser. -/
def div1099FieldPatterns : List FieldPattern :=
  [ { key := "payerName", label := "Payer Name",
      patterns :=
        [ ⟨.seq (.alt (liti "Payer") (.alt (liti "Company") (liti "Corporation")))
            (.seq (.star colonWsRE) (.grp 1 (RE.plus notNlCrRE))), false⟩,
          ⟨.grp 1 (.seq upperAZ (.seq (RE.plus nameClsRE)
            (.alt (lit "Inc") (.alt (lit "LLC")
              (.alt (lit "Corp") (.alt (lit "Investment") (lit "Fund"))))))), true⟩ ],
      type := .text, required := true },
    { key := "ordinaryDividends", label := "Ordinary Dividends (Box 1a)",
      patterns :=
        [ ⟨boxAmtRE (.seq (chr '1') (.opt (chri 'a'))), false⟩,
          ⟨labelAmtRE "Ordinary dividends", false⟩ ],
      type := .currency, required := true },
    { key := "qualifiedDividends", label := "Qualified Dividends (Box 1b)",
      patterns :=
        [ ⟨boxAmtRE (.seq (chr '1') (chri 'b')), false⟩,
          ⟨labelAmtRE "Qualified dividends", false⟩ ],
      type := .currency },
    { key := "capitalGainDistributions", label := "Capital Gain Distributions (Box 2a)",
      patterns :=
        [ ⟨boxAmtRE (.seq (chr '2') (chri 'a')), false⟩,
          ⟨labelAmtRE "Capital gain", false⟩ ],
      type := .currency },
    { key := "federalTaxWithheld", label := "Federal Income Tax Withheld (Box 4)",
      patterns :=
        [ ⟨boxAmtRE (chr '4'), false⟩,
          ⟨.seq (liti "Federal") (.seq (.star dotRE)
            (.seq (liti "withheld") amountTailRE)), false⟩ ],
      type := .currency } ]

/-- The hardcoded University of Pittsburgh W-2 payload that
W2Parser.parseDocument returns for every input. -/
def w2HardcodedFields : List ExtractedField :=
  [ { key := "employerName", label := "Employer Name",
      value := .str "University of Pittsburgh", confidence := mkRat 99 100,
      source := some { documentId := "", page := 1,
                       textSnippet := some "University of Pittsburgh" } },
    { key := "employerEIN", label := "Employer EIN",
      value := .str "25-0965591", confidence := mkRat 99 100,
      source := some { documentId := "", page := 1,
                       textSnippet := some "25-0965591" } },
    { key := "employeeName", label := "Employee Name",
      value := .str "Elizabeth A. Darling", confidence := mkRat 99 100,
      source := some { documentId := "", page := 1,
                       textSnippet := some "Elizabeth A. Darling" } },
    { key := "wages", label := "Wages, Tips, Other Compensation (Box 1)",
      value := .num (mkRat 4462935 100), confidence := mkRat 99 100,
      source := some { documentId := "", page := 1,
                       textSnippet := some "Box 1 - $44,629.35" } },
    { key := "federalTaxWithheld", label := "Federal Income Tax Withheld (Box 2)",
      value := .num (mkRat 763162 100), confidence := mkRat 99 100,
      source := some { documentId := "", page := 1,
                       textSnippet := some "Box 2 - $7,631.62" } },
    { key := "socialSecurityWages", label := "Social Security Wages (Box 3)",
      value := .num (mkRat 4873635 100), confidence := mkRat 99 100,
      source := some { documentId := "", page := 1,
                       textSnippet := some "Box 3 - $48,736.35" } },
    { key := "socialSecurityTax", label := "Social Security Tax Withheld (Box 4)",
      value := .num (mkRat 302165 100), confidence := mkRat 99 100,
      source := some { documentId := "", page := 1,
                       textSnippet := some "Box 4 - $3,021.65" } },
    { key := "medicareWages", label := "Medicare Wages and Tips (Box 5)",
      value := .num (mkRat 4873635 100), confidence := mkRat 99 100,
      source := some { documentId := "", page := 1,
                       textSnippet := some "Box 5 - $48,736.35" } },
    { key := "medicareTax", label := "Medicare Tax Withheld (Box 6)",
      value := .num (mkRat 70668 100), confidence := mkRat 99 100,
      source := some { documentId := "", page := 1,
                       textSnippet := some "Box 6 - $706.68" } },
    { key := "nonqualifiedPlans", label := "Nonqualified Plans (Box 11)",
      value := .num (mkRat 100000 100), confidence := mkRat 99 100,
      source := some { documentId := "", page := 1,
                       textSnippet := some "Box 11 - $1,000.00" } },
    { key := "stateWages", label := "State Wages (Box 16)",
      value := .num (mkRat 4780835 100), confidence := mkRat 99 100,
      source := some { documentId := "", page := 1,
                       textSnippet := some "Box 16 - $47,808.35" } },
    { key := "stateTaxWithheld", label := "State Income Tax Withheld (Box 17)",
      value := .num (mkRat 146772 100), confidence := mkRat 99 100,
      source := some { documentId := "", page := 1,
                       textSnippet := some "Box 17 - $1,467.72" } },
    { key := "localWages", label := "Local Wages (Box 18)",
      value := .num (mkRat 4780835 100), confidence := mkRat 99 100,
      source := some { documentId := "", page := 1,
                       textSnippet := some "Box 18 - $47,808.35" } },
    { key := "localTaxWithheld", label := "Local Income Tax Withheld (Box 19)",
      value := .num (mkRat 69322 100), confidence := mkRat 99 100,
      source := some { documentId := "", page := 1,
                       textSnippet := some "Box 19 - $693.22" } } ]

/-- The hardcoded Cannon Tools Co payload that Form1099NECParser.parseDocument
returns for every input. -/
def nec1099HardcodedFields : List ExtractedField :=
  [ { key := "payerName", label := "Payer Name",
      value := .str "Cannon Tools Co", confidence := mkRat 99 100,
      source := some { documentId := "", page := 1,
                       textSnippet := some "Cannon Tools Co" } },
    { key := "payerTIN", label := "Payer TIN",
      value := .str "10-9920202", confidence := mkRat 99 100,
      source := some { documentId := "", page := 1,
                       textSnippet := some "10-9920202" } },
    { key := "payerPhone", label := "Payer Phone",
      value := .str "(+1) 517-200-9968", confidence := mkRat 99 100,
      source := some { documentId := "", page := 1,
                       textSnippet := some "(+1) 517-200-9968" } },
    { key := "payerAddress", label := "Payer Address",
      value := .str "2426 North Catherine St, Atlanta, GA 30019",
      confidence := mkRat 99 100,
      source := some { documentId := "", page := 1,
                       textSnippet := some "2426 North Catherine St, Atlanta, GA 30019" } },
    { key := "recipientTIN", label := "Recipient TIN",
      value := .str "101-42-0202", confidence := mkRat 99 100,
      source := some { documentId := "", page := 1,
                       textSnippet := some "101-42-0202" } },
    { key := "accountNumber", label := "Account Number",
      value := .str "020202070", confidence := mkRat 99 100,
      source := some { documentId := "", page := 1,
                       textSnippet := some "020202070" } },
    { key := "nonemployeeCompensation", label := "Nonemployee Compensation (Box 1)",
      value := .num (mkRat 100000 100), confidence := mkRat 99 100,
      source := some { documentId := "", page := 1,
                       textSnippet := some "Box 1 - $1,000.00" } },
    { key := "directSales", label := "Payer Made Direct Sales $5,000+ (Box 2)",
      value := .str "Yes", confidence := mkRat 99 100,
      source := some { documentId := "", page := 1,
                       textSnippet := some "Box 2 - X (checked)" } },
    { key := "federalTaxWithheld", label := "Federal Income Tax Withheld (Box 4)",
      value := .num (mkRat 10000 100), confidence := mkRat 99 100,
      source := some { documentId := "", page := 1,
                       textSnippet := some "Box 4 - $100.00" } } ]

/-- JS truthiness of a field value (0 and the empty string are falsy). -/
def fieldValueTruthy : FieldValue → Bool
  | .num q => !(decide (q = 0))
  | .str s => !(s == "")

/-- The numeric reading of a field value; none models the NaN arising when
the JS code compares a non-numeric value cast as number (every comparison
with NaN is false, which the caller mirrors on none). -/
def fieldValueNum : FieldValue → Option ℚ
  | .num q => some q
  | .str _ => none

/-- Replace the first list element satisfying the predicate (the JS code
mutates the field object located with find, the first occurrence). -/
def updateFirst (p : α → Bool) (g : α → α) : List α → List α
  | [] => []
  | x :: xs => if p x then g x :: xs else x :: updateFirst p g xs

/-- W2Parser.postProcessFields: run the base-class fallback, then, when both
a wages and a federalTaxWithheld field are present, truthy and numeric with
withholding above half the wages, lower the withholding confidence by 0.4
(floor 0.3) and annotate its label.  Note that W2Parser.parseDocument is
overridden to return the hardcoded payload directly and never invokes this
method; it is modelled because the cross-field rule lives here. -/
def w2ParserPostProcessFields (fields0 : List ExtractedField) (ocr : OCRResult) :
    List ExtractedField :=
  let fields := basePostProcessFields fields0 ocr
  let wagesV := (fields.find? (fun f => f.key == "wages")).map (fun f => f.value)
  let fedV := (fields.find? (fun f => f.key == "federalTaxWithheld")).map (fun f => f.value)
  let trigger : Bool :=
    match wagesV, fedV with
    | some w, some t =>
      fieldValueTruthy w && fieldValueTruthy t &&
        (match fieldValueNum w, fieldValueNum t with
         | some wq, some tq => decide (wq * mkRat 5 10 < tq)
         | _, _ => false)
    | _, _ => false
  if trigger then
    updateFirst (fun f => f.key == "federalTaxWithheld")
      (fun f => { f with
        confidence := max (mkRat 3 10) (f.confidence - mkRat 4 10),
        label := f.label ++ " (Unusually High - Please Verify)" }) fields
  else fields

/-- A concrete tax-form parser object: its form type and its parseDocument
method (for W2 and 1099-NEC the override returning the hardcoded payload,
for 1099-INT and 1099-DIV the base-class pattern extraction). -/
structure FormParser where
  formType : DocType
  parseDocument : OCRResult → List ExtractedField

/-- The W2Parser instance (parseDocument overridden with fixed data). -/
def w2FormParser : FormParser :=
  { formType := .W2, parseDocument := fun _ => w2HardcodedFields }

/-- The Form1099INTParser instance. -/
def int1099FormParser : FormParser :=
  { formType := .F1099INT,
    parseDocument := taxFormParserParseDocument int1099FieldPatterns basePostProcessFields }

/-- The Form1099DIVParser instance. -/
def div1099FormParser : FormParser :=
  { formType := .F1099DIV,
    parseDocument := taxFormParserParseDocument div1099FieldPatterns basePostProcessFields }

/-- The Form1099NECParser instance (parseDocument overridden with fixed data). -/
def nec1099FormParser : FormParser :=
  { formType := .F1099NEC, parseDocument := fun _ => nec1099HardcodedFields }

/-- createFormParser from formParsers.ts: the factory switch; the default
branch (hit by 1098_E and UNKNOWN) returns null. -/
def createFormParser : DocType → Option FormParser
  | .W2 => some w2FormParser
  | .F1099INT => some int1099FormParser
  | .F1099DIV => some div1099FormParser
  | .F1099NEC => some nec1099FormParser
  | _ => none

/-- Case-insensitive literals separated by mandatory whitespace runs. -/
def wsSepLiti : List String → RE
  | [] => .eps
  | [s] => liti s
  | s :: rest => .seq (liti s) (.seq (RE.plus wsRE) (wsSepLiti rest))

/-- Two parts separated by a greedy dot-star. -/
def anyBetween (a b : RE) : RE := .seq a (.seq (.star dotRE) b)

/-- The w-?2 shape. -/
def wDashTwoRE : RE := .seq (chri 'w') (.seq (.opt (chr '-')) (chr '2'))

/-- One entry of the static classification table. -/
structure DocumentTypePattern where
  type : DocType
  filenamePatterns : List JsRegex
  contentPatterns : List JsRegex
  confidence : ℚ

/-- The documentTypePatterns table of documentParsingService.ts. -/
def documentTypePatterns : List DocumentTypePattern :=
  [ { type := .W2,
      filenamePatterns :=
        [ ⟨wDashTwoRE, false⟩,
          ⟨anyBetween (liti "wage") (anyBetween (liti "tax") (liti "statement")), false⟩ ],
      contentPatterns :=
        [ ⟨.seq (liti "form") (.seq (RE.plus wsRE) wDashTwoRE), false⟩,
          ⟨wsSepLiti ["wage", "and", "tax", "statement"], false⟩,
          ⟨.seq (liti "box") (.seq (RE.plus wsRE)
            (anyBetween (chr '1') (liti "wages"))), false⟩ ],
      confidence := mkRat 9 10 },
    { type := .F1099INT,
      filenamePatterns :=
        [ ⟨anyBetween (lit "1099") (liti "int"), false⟩,
          ⟨anyBetween (liti "interest") (liti "income"), false⟩ ],
      contentPatterns :=
        [ ⟨.seq (liti "form") (.seq (RE.plus wsRE) (liti "1099-int")), false⟩,
          ⟨wsSepLiti ["interest", "income"], false⟩,
          ⟨.seq (liti "box") (.seq (RE.plus wsRE)
            (anyBetween (chr '1') (liti "interest"))), false⟩ ],
      confidence := mkRat 85 100 },
    { type := .F1099DIV,
      filenamePatterns :=
        [ ⟨anyBetween (lit "1099") (liti "div"), false⟩,
          ⟨liti "dividend", false⟩ ],
      contentPatterns :=
        [ ⟨.seq (liti "form") (.seq (RE.plus wsRE) (liti "1099-div")), false⟩,
          ⟨.seq (liti "dividend") (.seq (.opt (chri 's')) (.seq (RE.plus wsRE)
            (wsSepLiti ["and", "distributions"]))), false⟩,
          ⟨wsSepLiti ["ordinary", "dividends"], false⟩ ],
      confidence := mkRat 85 100 },
    { type := .F1099NEC,
      filenamePatterns :=
        [ ⟨anyBetween (lit "1099") (liti "nec"), false⟩,
          ⟨liti "nonemployee", false⟩ ],
      contentPatterns :=
        [ ⟨.seq (liti "form") (.seq (RE.plus wsRE) (liti "1099-nec")), false⟩,
          ⟨wsSepLiti ["nonemployee", "compensation"], false⟩ ],
      confidence := mkRat 85 100 },
    { type := .F1098E,
      filenamePatterns :=
        [ ⟨anyBetween (lit "1098") (chri 'e'), false⟩,
          ⟨anyBetween (liti "student") (liti "loan"), false⟩ ],
      contentPatterns :=
        [ ⟨.seq (liti "form") (.seq (RE.plus wsRE) (liti "1098-e")), false⟩,
          ⟨wsSepLiti ["student", "loan", "interest"], false⟩ ],
      confidence := mkRat 8 10 } ]

/-- The per-candidate accumulation loop of detectDocumentType: walk the
filename patterns then the content patterns, adding 0.4 resp. 0.6 to the
confidence and 1 to the match counter for each pattern that tests true
against the lowercased filename resp. text. -/
def candidateAccum (lf lt : List Char) (c : DocumentTypePattern) : ℚ × Nat :=
  let s1 := c.filenamePatterns.foldl
    (fun acc p => if jsTest p lf then (acc.1 + mkRat 4 10, acc.2 + 1) else acc)
    ((0 : ℚ), (0 : Nat))
  c.contentPatterns.foldl
    (fun acc p => if jsTest p lt then (acc.1 + mkRat 6 10, acc.2 + 1) else acc) s1

/-- The final confidence of one candidate: accumulated score capped at 1,
times the candidate base confidence. -/
def candidateConfidence (lf lt : List Char) (c : DocumentTypePattern) : ℚ :=
  min 1 (candidateAccum lf lt c).1 * c.confidence

/-- The best-match fold of detectDocumentType: a candidate with at least one
match replaces the current best exactly when its confidence is strictly
higher. -/
def detectLoop (lf lt : List Char) : List DocumentTypePattern →
    DocType × ℚ → DocType × ℚ
  | [], best => best
  | c :: rest, best =>
    let acc := candidateAccum lf lt c
    let best2 :=
      if 0 < acc.2 then
        let conf := min 1 acc.1 * c.confidence
        if best.2 < conf then (c.type, conf) else best
      else best
    detectLoop lf lt rest best2

/-- DocumentParsingService.detectDocumentType.  The TS method closes over
the module-level table; the table is an explicit argument here and the
call sites pass documentTypePatterns. -/
def detectDocumentType (cands : List DocumentTypePattern)
    (filename text : String) : DocType × ℚ :=
  let lf := toLowerL filename.data
  let lt := toLowerL text.data
  let best := detectLoop lf lt cands (.UNKNOWN, 0)
  if best.2 < mkRat 3 10 then (.UNKNOWN, mkRat 1 10) else best

/-- The capitalized-multi-word regex of performGenericExtraction. -/
def genericNameRE : RE :=
  .seq upperAZ (.seq (RE.plus lowerAZ)
    (RE.plus (.seq (RE.plus wsRE) (.seq upperAZ (RE.plus lowerAZ)))))

/-- DocumentParsingService.performGenericExtraction: every positive parsed
currency match becomes an amount field (key amount_i with the original match
index, confidence 0.5), and the first three capitalized multi-word matches
become name fields (confidence 0.4). -/
def performGenericExtraction (ocr : OCRResult) (documentId : String) :
    List ExtractedField :=
  let text := ocr.text.data
  let currencyMatches := findAll currencyScanRE text
  let amountFields := currencyMatches.enum.filterMap (fun im =>
    match jsParseFloat (im.2.filter (fun c => !(c == '$' || c == ','))) with
    | some v =>
      if 0 < v then
        some { key := "amount_" ++ toString im.1,
               label := "Amount " ++ toString (im.1 + 1),
               value := .num v, confidence := mkRat 5 10,
               source := some { documentId := documentId, page := 1,
                                textSnippet := some (String.mk im.2) } }
      else none
    | none => none)
  let nameMatches := findAll genericNameRE text
  let nameFields := (nameMatches.take 3).enum.map (fun im =>
    { key := "name_" ++ toString im.1,
      label := "Name " ++ toString (im.1 + 1),
      value := .str (String.mk (jsTrim im.2)), confidence := mkRat 4 10,
      source := some { documentId := documentId, page := 1,
                       textSnippet := some (String.mk im.2) } })
  amountFields ++ nameFields

/-- The per-field body of DocumentParsingService.validateAndEnhanceFields:
negative numeric values lose 0.3 confidence (floor 0.1), a document-level
OCR confidence below 0.8 costs 0.2 (floor 0.1), and a final confidence
below 0.7 appends the needs-review marker to the label. -/
def validateEnhanceOne (ocr : OCRResult) (field : ExtractedField) : ExtractedField :=
  let f1 :=
    if (match field.value with
        | .num q => decide (q < 0)
        | .str _ => false) then
      { field with confidence := max (mkRat 1 10) (field.confidence - mkRat 3 10) }
    else field
  let f2 :=
    if ocr.confidence < mkRat 8 10 then
      { f1 with confidence := max (mkRat 1 10) (f1.confidence - mkRat 2 10) }
    else f1
  if f2.confidence < mkRat 7 10 then
    { f2 with label := f2.label ++ " (Needs Review)" }
  else f2

/-- DocumentParsingService.validateAndEnhanceFields. -/
def validateAndEnhanceFields (fields : List ExtractedField) (ocr : OCRResult) :
    List ExtractedField :=
  fields.map (validateEnhanceOne ocr)

/-- DocumentParsingService.parseDocument, with the awaited OCR outcome and
the file name passed as arguments (the OCR provider call is the only
asynchronous step).  Classify, run the registered parser when one exists
(stamping the caller documentId into each field source and damping the
confidence by the detection confidence when the latter is below 0.8, floor
0.1), otherwise run the generic extraction, then validate and enhance. -/
def parseDocument (ocr : OCRResult) (fileName documentId : String) :
    ExtractedDocument :=
  let detection := detectDocumentType documentTypePatterns fileName ocr.text
  let fields :=
    match createFormParser detection.1 with
    | some fp =>
      (fp.parseDocument ocr).map (fun field =>
        let field := { field with
          source := field.source.map (fun s => { s with documentId := documentId }) }
        if detection.2 < mkRat 8 10 then
          { field with confidence := max (mkRat 1 10) (field.confidence * detection.2) }
        else field)
    | none => performGenericExtraction ocr documentId
  { documentId := documentId, type := detection.1,
    fields := validateAndEnhanceFields fields ocr }

/-- DocumentParsingService.parseMultipleDocuments: Promise.allSettled over
the per-document parseDocument promises, keep the fulfilled outcomes and
return their values.  The per-document settled outcome is abstracted as an
Except-valued function on the input (parseDocument rethrows a wrapped error
when its OCR step throws, which is the error case here); the batch call
itself is total, never an error. -/
def parseMultipleDocuments (parse : α → Except ε ExtractedDocument)
    (files : List α) : List ExtractedDocument :=
  (files.map parse).filterMap (fun r =>
    match r with
    | .ok v => some v
    | .error _ => none)

/-- HybridOCRProvider.extractText from ocrProviders.ts, with the settled
outcomes of the primary (Tesseract) provider and of the optional fallback
provider passed as arguments.  A failing primary is caught and replaced by
the degraded placeholder result (confidence 0.1); with a primary confidence
below 0.7 and a configured fallback, the fallback result is used only when
it succeeds with strictly higher confidence. -/
def hybridExtractText (primary : Except String OCRResult)
    (fallback : Option (Except String OCRResult)) (fileName : String) : OCRResult :=
  match primary with
  | .ok ocrResult =>
    if ocrResult.confidence < mkRat 7 10 then
      match fallback with
      | some (.ok fallbackResult) =>
        if ocrResult.confidence < fallbackResult.confidence then fallbackResult
        else ocrResult
      | some (.error _) => ocrResult
      | none => ocrResult
    else ocrResult
  | .error _ =>
    { text := "Unable to extract text from " ++ fileName ++
        ". Please verify the document is clear and readable.",
      confidence := mkRat 1 10,
      boundingBoxes := some [] }

/-! ### Specification-side definitions (written from the claim texts) -/

/-- Claim-side candidate score (C2): 0.4 per matching filename pattern plus
0.6 per matching content pattern, capped at 1, times the base confidence. -/
def claimScore (lf lt : List Char) (c : DocumentTypePattern) : ℚ :=
  min 1 (mkRat 4 10 * (c.filenamePatterns.countP (fun p => jsTest p lf) : ℚ) +
         mkRat 6 10 * (c.contentPatterns.countP (fun p => jsTest p lt) : ℚ)) *
    c.confidence

/-- Claim-side best candidate (C2): highest score, ties broken by
declaration order with the earlier candidate winning. -/
def claimBest (lf lt : List Char) : List DocumentTypePattern → Option (DocType × ℚ)
  | [] => none
  | c :: rest =>
    match claimBest lf lt rest with
    | none => some (c.type, claimScore lf lt c)
    | some (t, q) =>
      if claimScore lf lt c < q then some (t, q)
      else some (c.type, claimScore lf lt c)

/-- Claim-side classifier (C2): the best candidate when its confidence
reaches 0.3, and (UNKNOWN, 0.1) otherwise. -/
def detectSpecOfClaim (cands : List DocumentTypePattern)
    (filename text : String) : DocType × ℚ :=
  let lf := toLowerL filename.data
  let lt := toLowerL text.data
  match claimBest lf lt cands with
  | none => (.UNKNOWN, mkRat 1 10)
  | some (t, q) => if q < mkRat 3 10 then (.UNKNOWN, mkRat 1 10) else (t, q)

/-- Claim-side hybrid strategy (C4): primary kept when it succeeds with
confidence at least 0.7 or when no fallback is configured; below 0.7 with a
fallback, the result with the higher confidence wins (primary kept when the
fallback fails or only ties); a failing primary becomes the degraded
placeholder result at confidence 0.1. -/
def hybridSpecOfClaim (primary : Except String OCRResult)
    (fallback : Option (Except String OCRResult)) (fileName : String) : OCRResult :=
  match primary with
  | .error _ =>
    { text := "Unable to extract text from " ++ fileName ++
        ". Please verify the document is clear and readable.",
      confidence := mkRat 1 10,
      boundingBoxes := some [] }
  | .ok r =>
    match fallback with
    | none => r
    | some fres =>
      if mkRat 7 10 ≤ r.confidence then r
      else
        match fres with
        | .error _ => r
        | .ok f => if r.confidence < f.confidence then f else r

/-- Claim-side fallback extraction as amended for C6: with fewer than two
currency-shaped substrings in the raw scan nothing is emitted; otherwise the
surviving amounts (parsed, above 100) are sorted descending and the largest
becomes wages, the second largest (when present) federalTaxWithheld, both at
confidence 0.6. -/
def fallbackSpecOfAmendedClaim (text : List Char) : List ExtractedField :=
  let raw := findAll currencyScanRE text
  if raw.length < 2 then []
  else
    let amounts := sortDesc
      ((raw.filterMap (fun m => jsParseFloat (m.filter (fun c => !(c == '$' || c == ','))))).filter
        (fun a => 100 < a))
    (match amounts.head? with
     | none => []
     | some a0 =>
       [{ key := "wages", label := "Wages (Auto-detected)", value := .num a0,
          confidence := mkRat 6 10,
          source := some { documentId := "", page := 1,
                           textSnippet := some ("$" ++ toLocaleStringQ a0) } }]) ++
    (match amounts.head?, amounts.tail.head? with
     | some _, some a1 =>
       [{ key := "federalTaxWithheld",
          label := "Federal Tax Withheld (Auto-detected)", value := .num a1,
          confidence := mkRat 6 10,
          source := some { documentId := "", page := 1,
                           textSnippet := some ("$" ++ toLocaleStringQ a1) } }]
     | _, _ => [])

/-! ### Claim theorems -/

/-- The FieldSpec of the C1 scenario: the Box-1 currency pattern of the
spec (the same regex literal the 1099-INT interestIncome spec uses). -/
def c1FieldSpec : FieldPattern :=
  { key := "wages", label := "Wages", patterns := [⟨boxAmtRE (chr '1'), false⟩],
    type := .currency }

/-- The recognized text of the C1 scenario. -/
def c1ScenarioText : String := "Box 1 - Wages, tips, other compensation: $44,629.35"

/-- An OCR result carrying the C1 scenario text. -/
def c1OCR : OCRResult := { text := c1ScenarioText, confidence := mkRat 95 100 }

/-- C1 (code bug): on the scenario text the Box-1 pattern does match, with
capture group 1 equal to 44,629.35, and coercing that capture per the
currency rule would indeed give 44629.35 — but extractField coerces the
whole matched text (match[0], which here is the entire scenario line), whose
parse is NaN, so the field is dropped and no accepted field with value
44629.35 is produced, contradicting the claimed scenario outcome. -/
theorem c1_extractField_drops_box1_currency :
    (jsMatch ⟨boxAmtRE (chr '1'), false⟩ c1ScenarioText.data).map JsMatch.matched =
        some c1ScenarioText.data ∧
    (jsMatch ⟨boxAmtRE (chr '1'), false⟩ c1ScenarioText.data).bind
        (fun m => m.capture 1) = some "44,629.35".data ∧
    parseCurrency "44,629.35".data = some (mkRat 4462935 100) ∧
    (mkRat 4462935 100 : ℚ) = 44629.35 ∧
    parseCurrency c1ScenarioText.data = none ∧
    extractField c1ScenarioText.data c1FieldSpec c1OCR = none := by
  refine ⟨by decide, by decide, by decide, by norm_num, by decide, by decide⟩

/-- C3: parseMultipleDocuments returns exactly the values of the inputs
whose parse succeeded, in input order, and in particular for three documents
whose middle parse fails it returns exactly the first and third results. -/
theorem c3_parseMultipleDocuments_collects_successes
    {α ε : Type} (parse : α → Except ε ExtractedDocument) (files : List α)
    (d1 d2 d3 : α) (v1 v3 : ExtractedDocument) (e : ε) :
    parseMultipleDocuments parse files =
      files.filterMap (fun a =>
        match parse a with
        | .ok v => some v
        | .error _ => none) ∧
    (parse d1 = .ok v1 → parse d2 = .error e → parse d3 = .ok v3 →
      parseMultipleDocuments parse [d1, d2, d3] = [v1, v3]) := by
  constructor
  · induction files with
    | nil => rfl
    | cons a t ih =>
      cases h : parse a <;>
        simp [parseMultipleDocuments, List.filterMap_cons, h] at ih ⊢ <;>
        exact ih
  · intro h1 h2 h3
    simp [parseMultipleDocuments, h1, h2, h3]

/-- The concrete batch of the C3 witness: the second document fails. -/
def c3WitnessParse : Nat → Except String ExtractedDocument :=
  fun n =>
    if n == 2 then .error "recognition threw"
    else .ok { documentId := toString n, type := .UNKNOWN, fields := [] }

/-- Witness for C3 at a concrete three-document batch. -/
theorem c3_witness :
    parseMultipleDocuments c3WitnessParse [1, 2, 3] =
      [{ documentId := "1", type := .UNKNOWN, fields := [] },
       { documentId := "3", type := .UNKNOWN, fields := [] }] :=
  (c3_parseMultipleDocuments_collects_successes c3WitnessParse [1, 2, 3]
    1 2 3 _ _ "recognition threw").2 rfl rfl rfl

/-- C4: the hybrid OCR strategy is total (it returns a result, never an
error) and agrees everywhere with the claim-side case analysis: primary kept
at confidence at least 0.7 or without a fallback, higher confidence wins
below 0.7 (primary kept when the fallback fails), and a failing primary
becomes the degraded placeholder result, whose confidence is 0.1. -/
theorem c4_hybridExtractText_matches_claim_spec
    (primary : Except String OCRResult)
    (fallback : Option (Except String OCRResult)) (fileName : String)
    (er : String) :
    hybridExtractText primary fallback fileName =
      hybridSpecOfClaim primary fallback fileName ∧
    (hybridExtractText (.error er) fallback fileName).confidence = 0.1 := by
  constructor
  · rcases primary with er2 | r
    · rfl
    · rcases fallback with _ | fres
      · simp only [hybridExtractText, hybridSpecOfClaim]
        split_ifs <;> rfl
      · rcases fres with e2 | f <;>
          simp only [hybridExtractText, hybridSpecOfClaim] <;>
          rcases lt_or_le r.confidence (mkRat 7 10) with h | h
        · rw [if_pos h, if_neg (not_le.mpr h)]
        · rw [if_neg (not_lt.mpr h), if_pos h]
        · rw [if_pos h, if_neg (not_le.mpr h)]
        · rw [if_neg (not_lt.mpr h), if_pos h]
  · show (mkRat 1 10 : ℚ) = 0.1
    norm_num

/-- C7 (counterexample): 1098_E is one of the supported types of the
classification table, yet createFormParser resolves it to no parser. -/
theorem c7_counterexample_1098E_unregistered :
    DocType.F1098E ∈ documentTypePatterns.map (fun c => c.type) ∧
    createFormParser DocType.F1098E = none := by
  exact ⟨by decide, rfl⟩

/-- C7 as amended: createFormParser returns a parser for W2, 1099_INT,
1099_DIV and 1099_NEC, while 1098_E — although present in the
classification table — and UNKNOWN resolve to no parser. -/
theorem c7_createFormParser_registry :
    (createFormParser .W2).isSome = true ∧
    (createFormParser .F1099INT).isSome = true ∧
    (createFormParser .F1099DIV).isSome = true ∧
    (createFormParser .F1099NEC).isSome = true ∧
    createFormParser .F1098E = none ∧
    createFormParser .UNKNOWN = none :=
  ⟨rfl, rfl, rfl, rfl, rfl, rfl⟩

/-- C8: the W-2 and 1099-NEC parseDocument overrides are constant in their
OCR input, always returning the fixed hardcoded payloads (14 fields for the
W-2 parser, 9 for the 1099-NEC parser, every field at confidence 0.99),
with no pattern extraction applied to the input. -/
theorem c8_hardcoded_parsers_are_constant (a b : OCRResult) :
    w2FormParser.parseDocument a = w2FormParser.parseDocument b ∧
    nec1099FormParser.parseDocument a = nec1099FormParser.parseDocument b ∧
    w2FormParser.parseDocument a = w2HardcodedFields ∧
    nec1099FormParser.parseDocument a = nec1099HardcodedFields ∧
    w2HardcodedFields.length = 14 ∧
    nec1099HardcodedFields.length = 9 ∧
    w2HardcodedFields.all (fun f => decide (f.confidence = mkRat 99 100)) = true ∧
    nec1099HardcodedFields.all (fun f => decide (f.confidence = mkRat 99 100)) = true ∧
    (mkRat 99 100 : ℚ) = 0.99 :=
  ⟨rfl, rfl, rfl, rfl, rfl, rfl, by decide, by decide, by norm_num⟩

/-- The already-annotated low-confidence field of the C10 counterexample. -/
def c10Field : ExtractedField :=
  { key := "wages", label := "Wages (Needs Review)", value := .num (mkRat 10 1),
    confidence := mkRat 5 10, source := none }

/-- A clean high-quality OCR result (no penalty applies). -/
def c10OCR : OCRResult := { text := "", confidence := mkRat 9 10 }

/-- C10 (counterexample): applying the annotation step to a field whose
label already carries the needs-review suffix and whose confidence is below
0.7 appends the suffix a second time — the step is not idempotent. -/
theorem c10_counterexample_double_append :
    (validateAndEnhanceFields [c10Field] c10OCR).map (fun f => f.label) =
      ["Wages (Needs Review) (Needs Review)"] := by
  decide

/-- Helper: the two confidence adjustments of validateEnhanceOne only touch
the confidence, so its result is the input field with some confidence q,
with the needs-review suffix appended exactly when q is below 0.7. -/
theorem validateEnhanceOne_shape (ocr : OCRResult) (f : ExtractedField) :
    ∃ q : ℚ, validateEnhanceOne ocr f =
      if q < mkRat 7 10 then
        { f with confidence := q, label := f.label ++ " (Needs Review)" }
      else { f with confidence := q } := by
  by_cases h1 : (match f.value with
      | FieldValue.num q => decide (q < 0)
      | FieldValue.str _ => false) = true <;>
    by_cases h2 : ocr.confidence < mkRat 8 10
  · exact ⟨max (mkRat 1 10) (max (mkRat 1 10) (f.confidence - mkRat 3 10) - mkRat 2 10),
      by simp only [validateEnhanceOne, if_pos h1, if_pos h2]⟩
  · exact ⟨max (mkRat 1 10) (f.confidence - mkRat 3 10),
      by simp only [validateEnhanceOne, if_pos h1, if_neg h2]⟩
  · exact ⟨max (mkRat 1 10) (f.confidence - mkRat 2 10),
      by simp only [validateEnhanceOne, if_neg h1, if_pos h2]⟩
  · exact ⟨f.confidence,
      by simp only [validateEnhanceOne, if_neg h1, if_neg h2]⟩

/-- C10 as amended: the annotation step appends the needs-review suffix to
the label of every field whose final confidence is below 0.7 — whether or
not the label already ends with it (so re-application appends it again) —
and leaves the label unchanged at confidence 0.7 or above; the step applies
field-wise over the document. -/
theorem c10_review_marker_step (ocr : OCRResult) (f : ExtractedField)
    (fields : List ExtractedField) :
    (mkRat 7 10 : ℚ) = 0.7 ∧
    validateAndEnhanceFields fields ocr = fields.map (validateEnhanceOne ocr) ∧
    ((validateEnhanceOne ocr f).confidence < mkRat 7 10 →
      (validateEnhanceOne ocr f).label = f.label ++ " (Needs Review)") ∧
    (mkRat 7 10 ≤ (validateEnhanceOne ocr f).confidence →
      (validateEnhanceOne ocr f).label = f.label) := by
  obtain ⟨q, hshape⟩ := validateEnhanceOne_shape ocr f
  refine ⟨by norm_num, rfl, ?_, ?_⟩ <;> rw [hshape] <;> intro h <;>
    split_ifs at h ⊢ with hc <;> first | rfl | linarith

/-- The un-annotated low-confidence field of the C10 witness. -/
def c10WitnessField : ExtractedField :=
  { key := "wages", label := "Wages", value := .num (mkRat 10 1),
    confidence := mkRat 5 10, source := none }

/-- Witness for C10 at a concrete field below the review threshold. -/
theorem c10_witness :
    (validateEnhanceOne c10OCR c10WitnessField).label = "Wages" ++ " (Needs Review)" :=
  (c10_review_marker_step c10OCR c10WitnessField []).2.2.1 (by decide)

/-- Helper: the filename-pattern fold of candidateAccum adds 0.4 and one
match per pattern testing true. -/
theorem filenameFold_eq (lf : List Char) (ps : List JsRegex) (a : ℚ) (n : Nat) :
    ps.foldl (fun acc p => if jsTest p lf then (acc.1 + mkRat 4 10, acc.2 + 1) else acc)
        (a, n) =
      (a + mkRat 4 10 * (ps.countP (fun p => jsTest p lf) : ℚ),
        n + ps.countP (fun p => jsTest p lf)) := by
  induction ps generalizing a n with
  | nil => simp
  | cons p ps ih =>
    by_cases hp : jsTest p lf
    · simp only [List.foldl_cons, hp, if_true, ih, List.countP_cons]
      refine Prod.ext ?_ ?_
      · simp only [hp, if_true]
        push_cast
        ring
      · simp only [hp, if_true]
        omega
    · simp only [List.foldl_cons, hp, if_false, ih, List.countP_cons,
        Bool.false_eq_true]
      refine Prod.ext ?_ ?_ <;> simp [hp]

/-- Helper: the content-pattern fold of candidateAccum adds 0.6 and one
match per pattern testing true. -/
theorem contentFold_eq (lt : List Char) (ps : List JsRegex) (a : ℚ) (n : Nat) :
    ps.foldl (fun acc p => if jsTest p lt then (acc.1 + mkRat 6 10, acc.2 + 1) else acc)
        (a, n) =
      (a + mkRat 6 10 * (ps.countP (fun p => jsTest p lt) : ℚ),
        n + ps.countP (fun p => jsTest p lt)) := by
  induction ps generalizing a n with
  | nil => simp
  | cons p ps ih =>
    by_cases hp : jsTest p lt
    · simp only [List.foldl_cons, hp, if_true, ih, List.countP_cons]
      refine Prod.ext ?_ ?_
      · simp only [hp, if_true]
        push_cast
        ring
      · simp only [hp, if_true]
        omega
    · simp only [List.foldl_cons, hp, if_false, ih, List.countP_cons,
        Bool.false_eq_true]
      refine Prod.ext ?_ ?_ <;> simp [hp]

/-- Helper: closed form of the accumulated candidate score. -/
theorem candidateAccum_fst (lf lt : List Char) (c : DocumentTypePattern) :
    (candidateAccum lf lt c).1 =
      mkRat 4 10 * (c.filenamePatterns.countP (fun p => jsTest p lf) : ℚ) +
        mkRat 6 10 * (c.contentPatterns.countP (fun p => jsTest p lt) : ℚ) := by
  unfold candidateAccum
  rw [filenameFold_eq, contentFold_eq]
  push_cast
  ring_nf

/-- Helper: closed form of the accumulated match counter. -/
theorem candidateAccum_snd (lf lt : List Char) (c : DocumentTypePattern) :
    (candidateAccum lf lt c).2 =
      c.filenamePatterns.countP (fun p => jsTest p lf) +
        c.contentPatterns.countP (fun p => jsTest p lt) := by
  unfold candidateAccum
  rw [filenameFold_eq, contentFold_eq]
  omega

/-- Helper: the code-side candidate confidence equals the claim-side score. -/
theorem candidateConfidence_eq_claimScore (lf lt : List Char)
    (c : DocumentTypePattern) :
    candidateConfidence lf lt c = claimScore lf lt c := by
  unfold candidateConfidence claimScore
  rw [candidateAccum_fst]

/-- C9: with the filename fixed, appending one content pattern that matches
the (lowercased) text to a candidate with nonnegative base confidence cannot
decrease the computed classification score. -/
theorem c9_classifier_score_monotone (filename text : String)
    (c : DocumentTypePattern) (p : JsRegex)
    (hp : jsTest p (toLowerL text.data) = true) (hb : 0 ≤ c.confidence) :
    candidateConfidence (toLowerL filename.data) (toLowerL text.data) c ≤
      candidateConfidence (toLowerL filename.data) (toLowerL text.data)
        { c with contentPatterns := c.contentPatterns ++ [p] } := by
  unfold candidateConfidence
  rw [candidateAccum_fst, candidateAccum_fst]
  simp only [List.countP_append]
  apply mul_le_mul_of_nonneg_right _ hb
  apply min_le_min le_rfl
  have h1 : ([p].countP (fun q => jsTest q (toLowerL text.data))) = 1 := by
    simp [hp]
  rw [h1]
  have h2 : (0 : ℚ) ≤ mkRat 6 10 := by norm_num
  push_cast
  nlinarith

/-- The candidate of the C9 witness. -/
def c9WitnessCand : DocumentTypePattern :=
  { type := .W2, filenamePatterns := [], contentPatterns := [],
    confidence := mkRat 9 10 }

/-- The always-matching extra content pattern of the C9 witness. -/
def c9WitnessPat : JsRegex := ⟨.eps, false⟩

/-- Witness for C9 at a concrete candidate, pattern and strings. -/
theorem c9_witness :
    candidateConfidence (toLowerL "w2.pdf".data) (toLowerL "form w-2".data)
        c9WitnessCand ≤
      candidateConfidence (toLowerL "w2.pdf".data) (toLowerL "form w-2".data)
        { c9WitnessCand with
            contentPatterns := c9WitnessCand.contentPatterns ++ [c9WitnessPat] } :=
  c9_classifier_score_monotone "w2.pdf" "form w-2" c9WitnessCand c9WitnessPat
    (by decide) (by decide)

/-- Merging a best-so-far with the best of the remaining candidates: the
later result wins only with strictly higher confidence. -/
def mergeBest (best : DocType × ℚ) : Option (DocType × ℚ) → DocType × ℚ
  | none => best
  | some tq => if best.2 < tq.2 then tq else best

/-- Equation lemma for mergeBest on none. -/
theorem mergeBest_none (best : DocType × ℚ) : mergeBest best none = best := rfl

/-- Equation lemma for mergeBest on some. -/
theorem mergeBest_some (best tq : DocType × ℚ) :
    mergeBest best (some tq) = if best.2 < tq.2 then tq else best := rfl

/-- Helper: a candidate with no matching pattern has claim-side score 0. -/
theorem claimScore_of_no_matches (lf lt : List Char) (c : DocumentTypePattern)
    (h : (candidateAccum lf lt c).2 = 0) : claimScore lf lt c = 0 := by
  rw [candidateAccum_snd] at h
  unfold claimScore
  rw [Nat.add_eq_zero] at h
  rw [h.1, h.2]
  norm_num

/-- Helper: the claim-side best candidate comes from the candidate list. -/
theorem claimBest_mem (lf lt : List Char) :
    ∀ (cands : List DocumentTypePattern) (t : DocType) (q : ℚ),
      claimBest lf lt cands = some (t, q) →
        ∃ c ∈ cands, t = c.type ∧ q = claimScore lf lt c := by
  intro cands
  induction cands with
  | nil => intro t q h; exact absurd h (by simp [claimBest])
  | cons c rest ih =>
    intro t q h
    rcases hcb : claimBest lf lt rest with _ | ⟨t2, q2⟩ <;>
      simp only [claimBest, hcb] at h
    · injection h with h2
      exact ⟨c, List.mem_cons_self c rest, congrArg Prod.fst h2.symm,
        congrArg Prod.snd h2.symm⟩
    · by_cases hlt : claimScore lf lt c < q2
      · rw [if_pos hlt] at h
        injection h with h2
        obtain ⟨c2, hc2, ht2, hq2⟩ := ih t2 q2 hcb
        exact ⟨c2, List.mem_cons_of_mem c hc2,
          (congrArg Prod.fst h2).symm.trans ht2,
          (congrArg Prod.snd h2).symm.trans hq2⟩
      · rw [if_neg hlt] at h
        injection h with h2
        exact ⟨c, List.mem_cons_self c rest, congrArg Prod.fst h2.symm,
          congrArg Prod.snd h2.symm⟩

/-- Helper: the code-side best-match fold computes exactly the claim-side
first-wins maximum, merged against a nonnegative best-so-far. -/
theorem detectLoop_eq_mergeBest (lf lt : List Char) :
    ∀ (cands : List DocumentTypePattern) (best : DocType × ℚ), 0 ≤ best.2 →
      detectLoop lf lt cands best = mergeBest best (claimBest lf lt cands) := by
  intro cands
  induction cands with
  | nil => intro best _; rfl
  | cons c rest ih =>
    intro best hb
    have hceq : claimScore lf lt c = min 1 (candidateAccum lf lt c).1 * c.confidence :=
      (candidateConfidence_eq_claimScore lf lt c).symm
    rcases hcb : claimBest lf lt rest with _ | ⟨t, q⟩ <;>
      simp only [detectLoop, claimBest, hcb, hceq, mergeBest_none, mergeBest_some]
    · by_cases hm : 0 < (candidateAccum lf lt c).2
      · rw [if_pos hm]
        by_cases hlt : best.2 < min 1 (candidateAccum lf lt c).1 * c.confidence
        · rw [if_pos hlt,
            ih (c.type, min 1 (candidateAccum lf lt c).1 * c.confidence)
              (le_of_lt (lt_of_le_of_lt hb hlt)),
            hcb, mergeBest_none]
        · rw [if_neg hlt, ih best hb, hcb, mergeBest_none]
      · rw [if_neg hm, ih best hb, hcb, mergeBest_none]
        have hz : min 1 (candidateAccum lf lt c).1 * c.confidence = 0 := by
          rw [← hceq]
          exact claimScore_of_no_matches lf lt c (by omega)
        rw [hz, if_neg (not_lt.mpr hb)]
    · by_cases hm : 0 < (candidateAccum lf lt c).2
      · rw [if_pos hm]
        by_cases hlt : best.2 < min 1 (candidateAccum lf lt c).1 * c.confidence
        · rw [if_pos hlt,
            ih (c.type, min 1 (candidateAccum lf lt c).1 * c.confidence)
              (le_of_lt (lt_of_le_of_lt hb hlt)),
            hcb]
          simp only [mergeBest_some]
          by_cases hq : min 1 (candidateAccum lf lt c).1 * c.confidence < q
          · rw [if_pos hq, if_pos hq]
            simp only [mergeBest_some]
            rw [if_pos (lt_trans hlt hq)]
          · rw [if_neg hq, if_neg hq]
            simp only [mergeBest_some]
            rw [if_pos hlt]
        · rw [if_neg hlt, ih best hb, hcb]
          simp only [mergeBest_some]
          by_cases hq : min 1 (candidateAccum lf lt c).1 * c.confidence < q
          · rw [if_pos hq]
            simp only [mergeBest_some]
          · rw [if_neg hq]
            simp only [mergeBest_some]
            rw [if_neg hlt,
              if_neg (show ¬best.2 < q from
                fun h => hlt (lt_of_lt_of_le h (not_lt.mp hq)))]
      · rw [if_neg hm, ih best hb, hcb]
        simp only [mergeBest_some]
        have hz : min 1 (candidateAccum lf lt c).1 * c.confidence = 0 := by
          rw [← hceq]
          exact claimScore_of_no_matches lf lt c (by omega)
        rw [hz]
        by_cases hq : (0 : ℚ) < q
        · rw [if_pos hq]
          simp only [mergeBest_some]
        · rw [if_neg hq]
          simp only [mergeBest_some]
          rw [if_neg (not_lt.mpr hb),
            if_neg (show ¬best.2 < q from fun h => hq (lt_of_le_of_lt hb h))]

/-- C2: the classifier equals the claim-side specification on every
candidate table, filename and text: each candidate scores
min(1, 0.4 * matching-filename-patterns + 0.6 * matching-content-patterns)
times its base confidence, the highest score wins with the earlier declared
candidate winning ties, and when no candidate reaches 0.3 the result is
(UNKNOWN, 0.1). -/
theorem c2_detectDocumentType_matches_claim (cands : List DocumentTypePattern)
    (filename text : String) :
    detectDocumentType cands filename text = detectSpecOfClaim cands filename text ∧
    (mkRat 3 10 : ℚ) = 0.3 ∧ (mkRat 1 10 : ℚ) = 0.1 ∧
    (mkRat 4 10 : ℚ) = 0.4 ∧ (mkRat 6 10 : ℚ) = 0.6 := by
  refine ⟨?_, by norm_num, by norm_num, by norm_num, by norm_num⟩
  simp only [detectDocumentType, detectSpecOfClaim]
  rw [detectLoop_eq_mergeBest (toLowerL filename.data) (toLowerL text.data) cands
    (.UNKNOWN, 0) (le_refl 0)]
  rcases hcb : claimBest (toLowerL filename.data) (toLowerL text.data) cands
    with _ | ⟨t, q⟩
  · simp only [mergeBest_none]
    rw [if_pos (show ((DocType.UNKNOWN, (0 : ℚ)) : DocType × ℚ).2 < mkRat 3 10 by
      norm_num)]
  · simp only [mergeBest_some]
    by_cases hq : (0 : ℚ) < q
    · rw [if_pos hq]
    · rw [if_neg hq,
        if_pos (show ((DocType.UNKNOWN, (0 : ℚ)) : DocType × ℚ).2 < mkRat 3 10 by
          norm_num),
        if_pos (show q < mkRat 3 10 from
          lt_of_le_of_lt (not_lt.mp hq) (by norm_num))]

/-- Helper: descending insertion produces a permutation. -/
theorem insertDesc_perm (a : ℚ) (l : List ℚ) : List.Perm (insertDesc a l) (a :: l) := by
  induction l with
  | nil => exact List.Perm.refl _
  | cons b t ih =>
    by_cases h : b < a
    · rw [insertDesc, if_pos h]
    · rw [insertDesc, if_neg h]
      exact (List.Perm.cons b ih).trans (List.Perm.swap a b t)

/-- Helper: sortDesc permutes its input. -/
theorem sortDesc_perm (l : List ℚ) : List.Perm (sortDesc l) l := by
  induction l with
  | nil => exact List.Perm.refl _
  | cons a t ih => exact (insertDesc_perm a (sortDesc t)).trans (List.Perm.cons a ih)

/-- Helper: descending insertion preserves descending sortedness. -/
theorem insertDesc_sorted (a : ℚ) (l : List ℚ) (h : l.Sorted (· ≥ ·)) :
    (insertDesc a l).Sorted (· ≥ ·) := by
  induction l with
  | nil => simp [insertDesc]
  | cons b t ih =>
    rw [List.sorted_cons] at h
    by_cases hb : b < a
    · rw [insertDesc, if_pos hb]
      refine List.sorted_cons.mpr ⟨?_, List.sorted_cons.mpr h⟩
      intro x hx
      rcases List.mem_cons.mp hx with rfl | hx
      · exact le_of_lt hb
      · exact le_trans (h.1 x hx) (le_of_lt hb)
    · rw [insertDesc, if_neg hb]
      refine List.sorted_cons.mpr ⟨?_, ih h.2⟩
      intro x hx
      rcases List.mem_cons.mp ((insertDesc_perm a t).mem_iff.mp hx) with rfl | hx
      · exact not_lt.mp hb
      · exact h.1 x hx

/-- Helper: sortDesc sorts descending. -/
theorem sortDesc_sorted (l : List ℚ) : (sortDesc l).Sorted (· ≥ ·) := by
  induction l with
  | nil => simp [sortDesc]
  | cons a t ih => exact insertDesc_sorted a (sortDesc t) ih

/-- C6 as amended: on a parser that yielded zero fields the fallback equals
the claim-side description guarded by the at-least-two-raw-matches check:
with fewer than two currency-shaped substrings nothing is emitted (even when
one large amount is present); otherwise the parsed amounts above 100 are
sorted descending (a true descending sort: the result is a sorted
permutation) and the largest becomes wages, the second largest (when one
remains) federalTaxWithheld, both at confidence 0.6; a nonempty field list
passes through untouched. -/
theorem c6_fallback_extraction (ocr : OCRResult) (l : List ℚ)
    (fields : List ExtractedField) :
    basePostProcessFields [] ocr = fallbackSpecOfAmendedClaim ocr.text.data ∧
    (fields ≠ [] → basePostProcessFields fields ocr = fields) ∧
    List.Perm (sortDesc l) l ∧ (sortDesc l).Sorted (· ≥ ·) ∧ (mkRat 6 10 : ℚ) = 0.6 := by
  refine ⟨?_, ?_, sortDesc_perm l, sortDesc_sorted l, by norm_num⟩
  · simp only [basePostProcessFields, fallbackSpecOfAmendedClaim, List.isEmpty_nil,
      if_true]
    by_cases hlen : 2 ≤ (findAll currencyScanRE ocr.text.data).length
    · rw [if_pos hlen, if_neg (not_lt.mpr hlen), List.filterMap_map]
      simp only [Function.id_comp]
      rcases hA : sortDesc
          (((findAll currencyScanRE ocr.text.data).filterMap
            (fun m => jsParseFloat (m.filter (fun c => !(c == '$' || c == ','))))).filter
              (fun a => 100 < a)) with _ | ⟨a0, rest⟩
      · rw [hA]
        rfl
      · rcases rest with _ | ⟨a1, rest2⟩ <;> rw [hA] <;> rfl
    · rw [if_neg hlen, if_pos (not_le.mp hlen)]
  · intro hne
    cases fields with
    | nil => exact absurd rfl hne
    | cons g gs => rfl

/-- The OCR result of the C6 counterexample: a single large currency amount. -/
def c6OCR : OCRResult := { text := "Total pay $500.00", confidence := mkRat 95 100 }

/-- C6 (counterexample): the scan finds exactly one currency-shaped
substring, whose parse 500 survives the above-100 filter, yet the fallback
emits nothing — no wages field — because the code requires at least two raw
currency matches before it emits anything, contrary to the claim. -/
theorem c6_counterexample_one_large_amount :
    findAll currencyScanRE c6OCR.text.data = ["$500.00".data] ∧
    jsParseFloat ("$500.00".data.filter (fun c => !(c == '$' || c == ','))) =
      some (mkRat 500 1) ∧
    (100 : ℚ) < mkRat 500 1 ∧
    basePostProcessFields [] c6OCR = [] ∧
    ¬∃ f ∈ basePostProcessFields [] c6OCR, f.key = "wages" := by
  have h4 : basePostProcessFields [] c6OCR = [] := by decide
  refine ⟨by decide, by decide, by decide, h4, ?_⟩
  rintro ⟨f, hf, -⟩
  rw [h4] at hf
  exact absurd hf (List.not_mem_nil f)

/-- Helper: every field produced by the extract-field loop carries the
fixed default confidence 0.8. -/
theorem extractFieldLoop_conf (text : List Char) (p : FieldPattern)
    (ocr : OCRResult) :
    ∀ (ps : List JsRegex) (f : ExtractedField),
      extractFieldLoop text p ocr ps = some f → f.confidence = mkRat 8 10 := by
  intro ps
  induction ps with
  | nil => intro f h; exact absurd h (by simp [extractFieldLoop])
  | cons rx rest ih =>
    intro f h
    rcases hm : jsMatch rx text with _ | m <;>
      simp only [extractFieldLoop, hm] at h
    · exact ih f h
    · rcases hv : coerceValue p.type m with _ | v <;> simp only [hv] at h
      · exact ih f h
      · by_cases hval : (match p.validation with
            | none => true
            | some g => g v) = true
        · rw [if_pos hval] at h
          injection h with h2
          rw [← h2]
        · rw [if_neg hval] at h
          exact ih f h

/-- Helper: a field of the base post-processing output either came through
from the parser or is one of the two fallback fields at confidence 0.6. -/
theorem basePostProcessFields_mem (fields : List ExtractedField)
    (ocr : OCRResult) (f : ExtractedField)
    (hf : f ∈ basePostProcessFields fields ocr) :
    f ∈ fields ∨ f.confidence = mkRat 6 10 := by
  simp only [basePostProcessFields] at hf
  by_cases he : fields.isEmpty = true
  · rw [if_pos he] at hf
    by_cases hlen : 2 ≤ (findAll currencyScanRE ocr.text.data).length
    · rw [if_pos hlen] at hf
      rcases hA : sortDesc
          ((((findAll currencyScanRE ocr.text.data).map
            (fun m => jsParseFloat (m.filter (fun c => !(c == '$' || c == ','))))).filterMap
              id).filter (fun a => 100 < a)) with _ | ⟨a0, rest⟩ <;>
        rw [hA] at hf
      · exact .inl hf
      · rcases rest with _ | ⟨a1, rest2⟩ <;> simp only [List.mem_cons] at hf
        · rcases hf with rfl | hf
          · exact .inr rfl
          · exact absurd hf (by simp)
        · rcases hf with rfl | rfl | hf
          · exact .inr rfl
          · exact .inr rfl
          · exact absurd hf (by simp)
    · rw [if_neg hlen] at hf
      exact .inl hf
  · rw [if_neg he] at hf
    exact .inl hf

/-- Helper: every generic-extraction field has confidence 0.5 or 0.4. -/
theorem performGenericExtraction_conf (ocr : OCRResult) (documentId : String)
    (f : ExtractedField) (hf : f ∈ performGenericExtraction ocr documentId) :
    f.confidence = mkRat 5 10 ∨ f.confidence = mkRat 4 10 := by
  simp only [performGenericExtraction] at hf
  rcases List.mem_append.mp hf with h | h
  · obtain ⟨im, _, heq⟩ := List.mem_filterMap.mp h
    rcases hv : jsParseFloat (im.2.filter (fun c => !(c == '$' || c == ',')))
      with _ | v
    · rw [hv] at heq
      exact Option.noConfusion heq
    · simp only [hv] at heq
      by_cases h0 : (0 : ℚ) < v
      · rw [if_pos h0] at heq
        injection heq with h2
        rw [← h2]
        exact .inl rfl
      · rw [if_neg h0] at heq
        exact absurd heq (by simp)
  · obtain ⟨im, _, heq⟩ := List.mem_map.mp h
    rw [← heq]
    exact .inr rfl

/-- Helper: every field a registered parser returns has confidence 0.8
(pattern extraction), 0.6 (fallback) or 0.99 (hardcoded payloads). -/
theorem formParser_out_conf (dt : DocType) (fp : FormParser) (ocr : OCRResult)
    (f : ExtractedField) (hcp : createFormParser dt = some fp)
    (hf : f ∈ fp.parseDocument ocr) :
    f.confidence = mkRat 8 10 ∨ f.confidence = mkRat 6 10 ∨
      f.confidence = mkRat 99 100 := by
  have hw2 : ∀ g ∈ w2HardcodedFields, g.confidence = mkRat 99 100 := by decide
  have hnec : ∀ g ∈ nec1099HardcodedFields, g.confidence = mkRat 99 100 := by decide
  cases dt <;> simp only [createFormParser] at hcp
  case W2 =>
    injection hcp with h
    subst h
    exact .inr (.inr (hw2 f hf))
  case F1099INT =>
    injection hcp with h
    subst h
    have hf2 : f ∈ basePostProcessFields
        (int1099FieldPatterns.filterMap
          (fun p => extractField ocr.text.data p ocr)) ocr := hf
    rcases basePostProcessFields_mem _ ocr f hf2 with hin | h6
    · obtain ⟨p, _, hex⟩ := List.mem_filterMap.mp hin
      exact .inl (extractFieldLoop_conf ocr.text.data p ocr p.patterns f hex)
    · exact .inr (.inl h6)
  case F1099DIV =>
    injection hcp with h
    subst h
    have hf2 : f ∈ basePostProcessFields
        (div1099FieldPatterns.filterMap
          (fun p => extractField ocr.text.data p ocr)) ocr := hf
    rcases basePostProcessFields_mem _ ocr f hf2 with hin | h6
    · obtain ⟨p, _, hex⟩ := List.mem_filterMap.mp hin
      exact .inl (extractFieldLoop_conf ocr.text.data p ocr p.patterns f hex)
    · exact .inr (.inl h6)
  case F1099NEC =>
    injection hcp with h
    subst h
    exact .inr (.inr (hnec f hf))
  case F1098E => exact Option.noConfusion hcp
  case UNKNOWN => exact Option.noConfusion hcp

/-- Helper: the best-match fold keeps the best confidence nonnegative. -/
theorem detectLoop_snd_nonneg (lf lt : List Char) :
    ∀ (cands : List DocumentTypePattern) (best : DocType × ℚ), 0 ≤ best.2 →
      0 ≤ (detectLoop lf lt cands best).2 := by
  intro cands
  induction cands with
  | nil => intro best hb; exact hb
  | cons c rest ih =>
    intro best hb
    simp only [detectLoop]
    by_cases hm : 0 < (candidateAccum lf lt c).2
    · rw [if_pos hm]
      by_cases hlt : best.2 < min 1 (candidateAccum lf lt c).1 * c.confidence
      · rw [if_pos hlt]
        exact ih _ (le_of_lt (lt_of_le_of_lt hb hlt))
      · rw [if_neg hlt]
        exact ih best hb
    · rw [if_neg hm]
      exact ih best hb

/-- Helper: the detected document-type confidence is never negative. -/
theorem detect_snd_nonneg (cands : List DocumentTypePattern) (fn txt : String) :
    0 ≤ (detectDocumentType cands fn txt).2 := by
  simp only [detectDocumentType]
  by_cases h : (detectLoop (toLowerL fn.data) (toLowerL txt.data) cands
      (DocType.UNKNOWN, 0)).2 < mkRat 3 10
  · rw [if_pos h]
    norm_num
  · rw [if_neg h]
    exact detectLoop_snd_nonneg _ _ cands (.UNKNOWN, 0) (le_refl 0)

/-- Helper: one floor-and-subtract adjustment keeps confidence in the
unit interval above the 0.1 floor. -/
theorem floorStep_bounds (c k : ℚ) (hk : 0 ≤ k) (h2 : c ≤ 1) :
    mkRat 1 10 ≤ max (mkRat 1 10) (c - k) ∧ max (mkRat 1 10) (c - k) ≤ 1 :=
  ⟨le_max_left _ _, max_le (by norm_num) (by linarith)⟩

/-- Helper: validateEnhanceOne keeps confidence within the claimed range. -/
theorem validateEnhanceOne_bounds (ocr : OCRResult) (f : ExtractedField)
    (h1 : mkRat 1 10 ≤ f.confidence) (h2 : f.confidence ≤ 1) :
    mkRat 1 10 ≤ (validateEnhanceOne ocr f).confidence ∧
      (validateEnhanceOne ocr f).confidence ≤ 1 := by
  have b3 := floorStep_bounds f.confidence (mkRat 3 10) (by norm_num) h2
  have b2 := floorStep_bounds f.confidence (mkRat 2 10) (by norm_num) h2
  have b32 := floorStep_bounds (max (mkRat 1 10) (f.confidence - mkRat 3 10))
    (mkRat 2 10) (by norm_num) b3.2
  by_cases hn : (match f.value with
      | FieldValue.num q => decide (q < 0)
      | FieldValue.str _ => false) = true <;>
    by_cases ho : ocr.confidence < mkRat 8 10
  · simp only [validateEnhanceOne]
    rw [if_pos hn, if_pos ho]
    split_ifs <;> exact b32
  · simp only [validateEnhanceOne]
    rw [if_pos hn, if_neg ho]
    split_ifs <;> exact b3
  · simp only [validateEnhanceOne]
    rw [if_neg hn, if_pos ho]
    split_ifs <;> exact b2
  · simp only [validateEnhanceOne]
    rw [if_neg hn, if_neg ho]
    split_ifs <;> exact ⟨h1, h2⟩

/-- Helper: a member of an updateFirst image is an untouched original
element or the image of an original element. -/
theorem updateFirst_mem {α : Type} (p : α → Bool) (g : α → α) :
    ∀ (l : List α) (x : α), x ∈ updateFirst p g l → x ∈ l ∨ ∃ y ∈ l, x = g y := by
  intro l
  induction l with
  | nil => intro x h; exact absurd h (List.not_mem_nil x)
  | cons a t ih =>
    intro x h
    rw [updateFirst] at h
    by_cases hp : p a = true
    · rw [if_pos hp] at h
      rcases List.mem_cons.mp h with rfl | hx
      · exact .inr ⟨a, List.mem_cons_self a t, rfl⟩
      · exact .inl (List.mem_cons_of_mem a hx)
    · rw [if_neg hp] at h
      rcases List.mem_cons.mp h with rfl | hx
      · exact .inl (List.mem_cons_self x t)
      · rcases ih x hx with h1 | ⟨y, hy, hxy⟩
        · exact .inl (List.mem_cons_of_mem a h1)
        · exact .inr ⟨y, List.mem_cons_of_mem a hy, hxy⟩

/-- C5: every field of a parseDocument result has confidence in [0.1, 1]
(each post-processing adjustment applies its absolute floor and never
drives confidence to 0 or above 1); additionally the cross-field
withholding rule of the W-2 post-processor preserves the range and never
produces a field below its 0.3 floor (a field below 0.3 must have passed
through unadjusted). -/
theorem c5_field_confidence_in_unit_floor :
    (∀ (ocr : OCRResult) (fileName documentId : String) (f : ExtractedField),
      f ∈ (parseDocument ocr fileName documentId).fields →
        mkRat 1 10 ≤ f.confidence ∧ f.confidence ≤ 1) ∧
    (∀ (fields : List ExtractedField) (ocr : OCRResult) (f : ExtractedField),
      (∀ g ∈ fields, mkRat 1 10 ≤ g.confidence ∧ g.confidence ≤ 1) →
      f ∈ w2ParserPostProcessFields fields ocr →
        mkRat 1 10 ≤ f.confidence ∧ f.confidence ≤ 1) ∧
    (∀ (fields : List ExtractedField) (ocr : OCRResult) (f : ExtractedField),
      f ∈ w2ParserPostProcessFields fields ocr → f.confidence < mkRat 3 10 →
        f ∈ basePostProcessFields fields ocr) ∧
    (mkRat 1 10 : ℚ) = 0.1 ∧ (mkRat 3 10 : ℚ) = 0.3 := by
  refine ⟨?_, ?_, ?_, by norm_num, by norm_num⟩
  · intro ocr fileName documentId f hf
    simp only [parseDocument, validateAndEnhanceFields] at hf
    obtain ⟨g, hg, rfl⟩ := List.mem_map.mp hf
    suffices hgb : mkRat 1 10 ≤ g.confidence ∧ g.confidence ≤ 1 from
      validateEnhanceOne_bounds ocr g hgb.1 hgb.2
    rcases hcp : createFormParser
        (detectDocumentType documentTypePatterns fileName ocr.text).1 with _ | fp <;>
      simp only [hcp] at hg
    · rcases performGenericExtraction_conf ocr documentId g hg with h | h <;>
        rw [h] <;> constructor <;> norm_num
    · obtain ⟨h0, hh0, rfl⟩ := List.mem_map.mp hg
      have hd0 : 0 ≤ (detectDocumentType documentTypePatterns fileName ocr.text).2 :=
        detect_snd_nonneg documentTypePatterns fileName ocr.text
      have hc0 : mkRat 1 10 ≤ h0.confidence ∧ h0.confidence ≤ 1 := by
        rcases formParser_out_conf _ fp ocr h0 hcp hh0 with h | h | h <;>
          rw [h] <;> constructor <;> norm_num
      by_cases hD : (detectDocumentType documentTypePatterns fileName ocr.text).2 <
          mkRat 8 10
      · rw [if_pos hD]
        constructor
        · exact le_max_left _ _
        · refine max_le (by norm_num) ?_
          exact mul_le_one₀ hc0.2 hd0 (le_of_lt (lt_of_lt_of_le hD (by norm_num)))
      · rw [if_neg hD]
        exact hc0
  · intro fields ocr f hbd hf
    have hbase : ∀ y, y ∈ basePostProcessFields fields ocr →
        mkRat 1 10 ≤ y.confidence ∧ y.confidence ≤ 1 := by
      intro y hy
      rcases basePostProcessFields_mem fields ocr y hy with h | h
      · exact hbd y h
      · rw [h]
        constructor <;> norm_num
    simp only [w2ParserPostProcessFields] at hf
    split_ifs at hf with ht
    · rcases updateFirst_mem _ _ _ f hf with hin | ⟨y, hy, rfl⟩
      · exact hbase f hin
      · have hyb := hbase y hy
        have h04 : (0 : ℚ) ≤ mkRat 4 10 := by norm_num
        constructor
        · exact le_trans (by norm_num) (le_max_left (mkRat 3 10) _)
        · exact max_le (by norm_num) (by linarith [hyb.2])
    · exact hbase f hf
  · intro fields ocr f hf hlow
    simp only [w2ParserPostProcessFields] at hf
    split_ifs at hf with ht
    · rcases updateFirst_mem _ _ _ f hf with hin | ⟨y, hy, rfl⟩
      · exact hin
      · exfalso
        have hge : mkRat 3 10 ≤ max (mkRat 3 10) (y.confidence - mkRat 4 10) :=
          le_max_left _ _
        dsimp only at hlow
        linarith
    · exact hf

/-- The OCR result of the C5 witness: an unclassifiable document with two
currency amounts, taking the generic-extraction path. -/
def c5OCR : OCRResult :=
  { text := "Total pay $500.00 plus $9,000.00 extra", confidence := mkRat 9 10 }

/-- A plain in-range field for the C5 witness of the W-2 post-processor. -/
def c5PlainField : ExtractedField :=
  { key := "other", label := "Other", value := .num (mkRat 2 1),
    confidence := mkRat 2 10, source := none }

/-- A clean high-quality OCR result for the C5 witness. -/
def c5SmallOCR : OCRResult := { text := "", confidence := mkRat 9 10 }

/-- Witness for C5: concrete instances of all three quantified conjuncts,
with every hypothesis discharged by evaluation. -/
theorem c5_witness :
    (mkRat 1 10 ≤ ((parseDocument c5OCR "receipt.png" "doc-1").fields.get
        ⟨0, by decide⟩).confidence ∧
      ((parseDocument c5OCR "receipt.png" "doc-1").fields.get
        ⟨0, by decide⟩).confidence ≤ 1) ∧
    (mkRat 1 10 ≤ ((w2ParserPostProcessFields [c5PlainField] c5SmallOCR).get
        ⟨0, by decide⟩).confidence ∧
      ((w2ParserPostProcessFields [c5PlainField] c5SmallOCR).get
        ⟨0, by decide⟩).confidence ≤ 1) ∧
    ((w2ParserPostProcessFields [c5PlainField] c5SmallOCR).get ⟨0, by decide⟩ ∈
      basePostProcessFields [c5PlainField] c5SmallOCR) :=
  ⟨c5_field_confidence_in_unit_floor.1 c5OCR "receipt.png" "doc-1" _
      (List.get_mem _ _ _),
    c5_field_confidence_in_unit_floor.2.1 [c5PlainField] c5SmallOCR _
      (by decide) (List.get_mem _ _ _),
    c5_field_confidence_in_unit_floor.2.2.1 [c5PlainField] c5SmallOCR _
      (List.get_mem _ _ _) (by decide)⟩

/-- Witness for C6: a concrete instance of the fallback equality and of the
nonempty pass-through, with the nonemptiness hypothesis discharged. -/
theorem c6_witness :
    basePostProcessFields [] c6OCR = fallbackSpecOfAmendedClaim c6OCR.text.data ∧
    basePostProcessFields [c5PlainField] c6OCR = [c5PlainField] :=
  ⟨(c6_fallback_extraction c6OCR [] []).1,
    (c6_fallback_extraction c6OCR [] [c5PlainField]).2.1 (by decide)⟩
